import Mathlib

/-!
Shallow embedding of the Ultimate Tic-Tac-Toe game engine from
`src/context/GameContext.tsx` (the multiplayer variant cited by the claims).

Conventions of the embedding:
* JS cell values ("X" | "O" | null) become `Option Player` (`none` = empty / null).
* JS arrays become `List`; an in-range read `a[i]` becomes `l.get? i = some v`
  (`l.get? i = none` models the JS `undefined` of an out-of-range read, which
  compares as "not null" in the validation guards, exactly as in the source).
* Numbers that can be negative in the source (`currentMoveIndex` starts at -1,
  timer values) become `Int`.
* `Math.random()`-driven selection `xs[Math.floor(Math.random()*xs.length)]`
  is modelled by an arbitrary selection function `choose : List Nat → Nat`
  passed to `getBotMove`; a faithful random source satisfies
  `∀ l, l ≠ [] → choose l ∈ l`.  Theorems quantify over all such functions.
* The reducer cases that the claims touch (MAKE_MOVE, UNDO, REDO, START_GAME,
  TICK_TIMER, TIME_UP, OPPONENT_MOVE) are embedded one definition per case;
  side effects (`playSound`, the multiplayer transport call) do not touch the
  returned state and are dropped.
-/

inductive Player where
  | X : Player
  | O : Player
deriving DecidableEq, Repr

/-- A cell of a sub-board: `none` is the JS `null` (empty). -/
abbrev Cell := Option Player

/-- One 3x3 sub-board, 9 cells in row-major order (JS `Board`). -/
abbrev BoardL := List Cell

/-- The JS union type of `gameStatus`: "init" | "playing" | "paused" | "game-over". -/
inductive GStatus where
  | init : GStatus
  | playing : GStatus
  | paused : GStatus
  | gameOver : GStatus
deriving DecidableEq, Repr

/-- One entry of `moveHistory`: the snapshot taken *before* the move was
applied, plus the move coordinates (`GameContext.tsx` line 22). -/
structure HistEntry where
  boards : List BoardL
  boardStatus : List Cell
  boardIndex : Nat
  cellIndex : Nat
deriving DecidableEq, Repr

/-- The `GameState` record of `GameContext.tsx` (lines 12-40). -/
structure GameState where
  boards : List BoardL
  boardStatus : List Cell
  currentPlayer : Cell
  nextBoardIndex : Option Nat
  gameStatus : GStatus
  winner : Cell
  turnTimeLimit : Int
  turnTimeRemaining : Int
  isMuted : Bool
  moveHistory : List HistEntry
  currentMoveIndex : Int
  showConfetti : Bool
  timerEnabled : Bool
  playerSymbols : String × String
  botMode : Bool
  difficulty : String
  multiplayerMode : Bool
  playerName : String
  gameCode : String
  opponentName : Option String
  isHost : Bool
  isMyTurn : Bool
  playerReady : Bool
  opponentReady : Bool
  gameStarted : Bool
  syncStartTime : Option Int
  waitingForSync : Bool
deriving DecidableEq, Repr

/-- The eight canonical winning triples (rows, columns, diagonals), in the
order the source lists them (`GameContext.tsx` lines 137-141). -/
def lines : List (Nat × Nat × Nat) :=
  [(0,1,2), (3,4,5), (6,7,8), (0,3,6), (1,4,7), (2,5,8), (0,4,8), (2,4,6)]

/-- Does a triple hold three identical non-empty values?  Mirrors
`board[a] && board[a] === board[b] && board[a] === board[c]`. -/
def lineWon (board : BoardL) (t : Nat × Nat × Nat) : Bool :=
  (board.getD t.1 none).isSome &&
    board.getD t.1 none == board.getD t.2.1 none &&
    board.getD t.1 none == board.getD t.2.2 none

/-- `checkWinner` (`GameContext.tsx` lines 135-151): the owner of the first
winning triple, else `null`.  A full board with no winner also returns `null`
(the comment in the source calls this a draw). -/
def checkWinner (board : BoardL) : Cell :=
  match lines.find? (lineWon board) with
  | some t => board.getD t.1 none
  | none => none

/-- The ternary flip of `currentPlayer`: X becomes O, anything else becomes X. -/
def flipPlayer (p : Cell) : Cell :=
  if p = some Player.X then some Player.O else some Player.X

/-- Write `p` into cell `c` of sub-board `b` (the clone-and-assign in
MAKE_MOVE / OPPONENT_MOVE). -/
def place (boards : List BoardL) (b c : Nat) (p : Cell) : List BoardL :=
  boards.set b ((boards.getD b []).set c p)

/-- The MAKE_MOVE validation guard (`GameContext.tsx` lines 374-380): the
move is rejected iff any disjunct holds.  `boardStatus.get? b ≠ some none`
also rejects an out-of-range board index, as the JS comparison with
`undefined` does. -/
def moveRejected (s : GameState) (boardIndex cellIndex : Nat) : Prop :=
  s.gameStatus ≠ GStatus.playing ∨
  (s.nextBoardIndex ≠ none ∧ s.nextBoardIndex ≠ some boardIndex) ∨
  s.boardStatus.get? boardIndex ≠ some none ∨
  (s.boards.getD boardIndex []).get? cellIndex ≠ some none ∨
  (s.multiplayerMode = true ∧ s.isMyTurn = false)

instance (s : GameState) (b c : Nat) : Decidable (moveRejected s b c) := by
  unfold moveRejected; infer_instance

/-- The MAKE_MOVE case of `gameReducer` (`GameContext.tsx` lines 370-444). -/
def makeMove (s : GameState) (boardIndex cellIndex : Nat) : GameState :=
  if moveRejected s boardIndex cellIndex then s
  else
    let newBoards := place s.boards boardIndex cellIndex s.currentPlayer
    let boardWinner := checkWinner (newBoards.getD boardIndex [])
    let newBoardStatus :=
      if boardWinner ≠ none then s.boardStatus.set boardIndex boardWinner
      else if ¬ (newBoards.getD boardIndex []).contains none then
        -- "If board is full with no winner, mark it as a tie" — the source
        -- stores `null` here, the same value that encodes an open board.
        s.boardStatus.set boardIndex none
      else s.boardStatus
    let nextBoard : Option Nat :=
      if newBoardStatus.get? cellIndex ≠ some none then none else some cellIndex
    let gameWinner := checkWinner newBoardStatus
    let gameOver := gameWinner ≠ none ∨ ¬ newBoardStatus.contains none
    let newHistory :=
      s.moveHistory.take (s.currentMoveIndex + 1).toNat ++
        [⟨s.boards, s.boardStatus, boardIndex, cellIndex⟩]
    { s with
      boards := newBoards
      boardStatus := newBoardStatus
      currentPlayer := flipPlayer s.currentPlayer
      nextBoardIndex := nextBoard
      gameStatus := if gameOver then GStatus.gameOver else s.gameStatus
      winner := gameWinner
      turnTimeRemaining := s.turnTimeLimit
      moveHistory := newHistory
      currentMoveIndex := s.currentMoveIndex + 1
      showConfetti := gameWinner ≠ none
      isMyTurn := if s.multiplayerMode then false else true }

/-- The UNDO case (`GameContext.tsx` lines 485-503).  When the guard passes,
the source reads `moveHistory[currentMoveIndex - 1]`; an out-of-range read
would throw in JS and is modelled as returning the state unchanged (the
claims only exercise in-range cursors). -/
def undo (s : GameState) : GameState :=
  if s.currentMoveIndex ≤ 0 ∨ s.multiplayerMode = true then s
  else
    match s.moveHistory.get? (s.currentMoveIndex - 1).toNat with
    | none => s
    | some prevMove =>
      { s with
        boards := prevMove.boards
        boardStatus := prevMove.boardStatus
        currentPlayer := flipPlayer s.currentPlayer
        nextBoardIndex := some prevMove.cellIndex
        currentMoveIndex := s.currentMoveIndex - 1
        gameStatus := GStatus.playing
        winner := none
        turnTimeRemaining := s.turnTimeLimit
        showConfetti := false }

/-- The REDO case (`GameContext.tsx` lines 505-529).  Note the source
recomputes winner and game-over from the *current* `boardStatus`, not the
restored one. -/
def redo (s : GameState) : GameState :=
  if s.currentMoveIndex ≥ (s.moveHistory.length : Int) - 1 ∨ s.multiplayerMode = true then s
  else
    match s.moveHistory.get? (s.currentMoveIndex + 1).toNat with
    | none => s
    | some historicalMove =>
      let nextMove := s.moveHistory.get? (s.currentMoveIndex + 2).toNat
      let nextBoardIndex := nextMove.map (·.cellIndex)
      let boardWinner := checkWinner s.boardStatus
      let gameOver := boardWinner ≠ none ∨ ¬ s.boardStatus.contains none
      { s with
        boards := historicalMove.boards
        boardStatus := historicalMove.boardStatus
        currentPlayer := flipPlayer s.currentPlayer
        nextBoardIndex := nextBoardIndex
        currentMoveIndex := s.currentMoveIndex + 1
        gameStatus := if gameOver then GStatus.gameOver else GStatus.playing
        winner := boardWinner
        turnTimeRemaining := s.turnTimeLimit
        showConfetti := boardWinner ≠ none }

/-- The START_GAME case (`GameContext.tsx` lines 464-469). -/
def startGame (s : GameState) : GameState :=
  { s with gameStatus := GStatus.playing }

/-- The TICK_TIMER case (`GameContext.tsx` lines 597-613). -/
def tickTimer (s : GameState) : GameState :=
  if s.gameStatus ≠ GStatus.playing ∨ s.timerEnabled = false ∨ s.turnTimeRemaining ≤ 0 then s
  else { s with turnTimeRemaining := s.turnTimeRemaining - 1 }

/-- The TIME_UP case (`GameContext.tsx` lines 615-628): timer-expiry
forfeiture flips the player and resets the clock, nothing else. -/
def timeUp (s : GameState) : GameState :=
  if s.gameStatus ≠ GStatus.playing ∨ s.timerEnabled = false then s
  else { s with
    currentPlayer := flipPlayer s.currentPlayer
    turnTimeRemaining := s.turnTimeLimit }

/-- The OPPONENT_MOVE case (`GameContext.tsx` lines 637-691).  The only
guard in the source tests only the playing phase and multiplayer mode; the
move is then applied with no constraint, occupancy or ownership check. -/
def opponentMove (s : GameState) (boardIndex cellIndex : Nat) : GameState :=
  if s.gameStatus ≠ GStatus.playing ∨ s.multiplayerMode = false then s
  else
    let newBoards := place s.boards boardIndex cellIndex s.currentPlayer
    let boardWinner := checkWinner (newBoards.getD boardIndex [])
    let newBoardStatus :=
      if boardWinner ≠ none then s.boardStatus.set boardIndex boardWinner
      else if ¬ (newBoards.getD boardIndex []).contains none then
        s.boardStatus.set boardIndex none
      else s.boardStatus
    let nextBoard : Option Nat :=
      if newBoardStatus.get? cellIndex ≠ some none then none else some cellIndex
    let gameWinner := checkWinner newBoardStatus
    let gameOver := gameWinner ≠ none ∨ ¬ newBoardStatus.contains none
    let newHistory :=
      s.moveHistory.take (s.currentMoveIndex + 1).toNat ++
        [⟨s.boards, s.boardStatus, boardIndex, cellIndex⟩]
    { s with
      boards := newBoards
      boardStatus := newBoardStatus
      currentPlayer := flipPlayer s.currentPlayer
      nextBoardIndex := nextBoard
      gameStatus := if gameOver then GStatus.gameOver else s.gameStatus
      winner := gameWinner
      turnTimeRemaining := s.turnTimeLimit
      moveHistory := newHistory
      currentMoveIndex := s.currentMoveIndex + 1
      showConfetti := gameWinner ≠ none
      isMyTurn := true }

/-- The engine actions the claims quantify over. -/
inductive GAction where
  | move (b c : Nat) : GAction
  | actUndo : GAction
  | actRedo : GAction
  | actStart : GAction
  | tick : GAction
  | timeout : GAction
  | oppMove (b c : Nat) : GAction
deriving DecidableEq, Repr

def applyA (s : GameState) (a : GAction) : GameState :=
  match a with
  | GAction.move b c => makeMove s b c
  | GAction.actUndo => undo s
  | GAction.actRedo => redo s
  | GAction.actStart => startGame s
  | GAction.tick => tickTimer s
  | GAction.timeout => timeUp s
  | GAction.oppMove b c => opponentMove s b c

def runA (s : GameState) (l : List GAction) : GameState := l.foldl applyA s

/-- `initialState` (`GameContext.tsx` lines 104-132). -/
def initSt : GameState where
  boards := List.replicate 9 (List.replicate 9 none)
  boardStatus := List.replicate 9 none
  currentPlayer := some Player.X
  nextBoardIndex := none
  gameStatus := GStatus.init
  winner := none
  turnTimeLimit := 30
  turnTimeRemaining := 30
  isMuted := false
  moveHistory := []
  currentMoveIndex := -1
  showConfetti := false
  timerEnabled := true
  playerSymbols := ("X", "O")
  botMode := false
  difficulty := "medium"
  multiplayerMode := false
  playerName := ""
  gameCode := ""
  opponentName := none
  isHost := false
  isMyTurn := true
  playerReady := false
  opponentReady := false
  gameStarted := false
  syncStartTime := none
  waitingForSync := false

example : (makeMove (startGame initSt) 4 4).nextBoardIndex = some 4 := by decide
example : (makeMove (startGame initSt) 4 4).currentPlayer = some Player.O := by decide

/-- The valid-board computation at the top of `getBotMove`
(`GameContext.tsx` lines 169-179): the constrained board if it is still
open, else every open board. -/
def validBoards (status : List Cell) (next : Option Nat) : List Nat :=
  match next with
  | some n =>
    if status.get? n = some none then [n]
    else (List.range status.length).filter (fun i => status.getD i none = none)
  | none => (List.range status.length).filter (fun i => status.getD i none = none)

/-- Indices of the empty cells of a sub-board, in ascending order (the
`forEach`-push loops of `getBotMove`). -/
def emptyCells (board : BoardL) : List Nat :=
  (List.range board.length).filter (fun i => board.getD i none = none)

/-- One iteration of the line loop in `findWinningMove`
(`GameContext.tsx` lines 320-325): if two cells of the triple hold `p` and
the third is empty, return the empty one. -/
def tripleMove (board : BoardL) (p : Player) (t : Nat × Nat × Nat) : Option Nat :=
  if board.getD t.1 none = some p ∧ board.getD t.2.1 none = some p ∧
      board.getD t.2.2 none = none then some t.2.2
  else if board.getD t.1 none = some p ∧ board.getD t.2.2 none = some p ∧
      board.getD t.2.1 none = none then some t.2.1
  else if board.getD t.2.1 none = some p ∧ board.getD t.2.2 none = some p ∧
      board.getD t.1 none = none then some t.1
  else none

/-- `findWinningMove` (`GameContext.tsx` lines 311-328), with `some c`
for a found cell in place of the JS sentinel `-1`. -/
def findWinningMove (board : BoardL) (p : Player) : Option Nat :=
  lines.findSome? (tripleMove board p)

/-- The win/block scan of the medium and hard tiers: first valid board
holding a winning (resp. blocking) cell, with that cell. -/
def scanWin (valid : List Nat) (boards : List BoardL) (p : Player) : Option (Nat × Nat) :=
  valid.findSome? (fun b => (findWinningMove (boards.getD b []) p).map (fun c => (b, c)))

/-- `findBestBoard` (`GameContext.tsx` lines 284-308): greedy argmax of
`emptyCount + 2*ownCellCount - opponentCellCount` over the valid boards,
first maximum wins (strict improvement), seeded with the first board. -/
def boardScore (board : BoardL) : Int :=
  ((board.filter (fun cell => cell = none)).length : Int) +
    2 * ((board.filter (fun cell => cell = some Player.O)).length : Int) -
    ((board.filter (fun cell => cell = some Player.X)).length : Int)

def findBestBoard (valid : List Nat) (boards : List BoardL) : Nat :=
  match valid with
  | [] => 0
  | v :: vs =>
    (vs.foldl
      (fun best b =>
        if boardScore (boards.getD b []) > best.2 then (b, boardScore (boards.getD b []))
        else best)
      (v, boardScore (boards.getD v []))).1

/-- The medium/hard win-then-block phase of `getBotMove`
(`GameContext.tsx` lines 201-223): a winning (bot) cell from the first
valid board that has one, else a blocking (opponent) cell likewise. -/
def mediumHardPick (valid : List Nat) (boards : List BoardL) : Option (Nat × Nat) :=
  match scanWin valid boards Player.O with
  | some bc => some bc
  | none => scanWin valid boards Player.X

/-- The hard-mode positional phase of `getBotMove` (`GameContext.tsx`
lines 226-264): board heuristic, then center / corners / edges, then the
override preferring the first empty cell whose destination board is
decided. -/
def hardPick (boards : List BoardL) (status : List Cell) (valid : List Nat)
    (bIdx0 : Nat) (choose : List Nat → Nat) : Nat × Nat :=
  let bIdx := if valid.length > 1 then findBestBoard valid boards else bIdx0
  let empties := emptyCells (boards.getD bIdx [])
  let corners := empties.filter (fun i => [0, 2, 6, 8].contains i)
  let edges := empties.filter (fun i => [1, 3, 5, 7].contains i)
  let cIdx0 :=
    if empties.contains 4 then 4
    else if corners ≠ [] then choose corners
    else choose edges
  let cIdx :=
    if empties.length > 1 then
      match empties.find? (fun c => status.getD c none ≠ none) with
      | some c => c
      | none => cIdx0
    else cIdx0
  (bIdx, cIdx)

/-- `getBotMove` (`GameContext.tsx` lines 168-281), for the three-difficulty
engine the claims cite.  `choose` models each
`xs[Math.floor(Math.random()*xs.length)]` selection.  An unmatched
difficulty string (the UI can submit "impossible") reaches neither the
easy branch, nor the win/block scan (guarded by `medium`/`hard`), nor the
hard branch, and falls through to the random fallback. -/
def getBotMove (boards : List BoardL) (status : List Cell) (next : Option Nat)
    (difficulty : String) (choose : List Nat → Nat) : Nat × Nat :=
  let valid := validBoards status next
  let bIdx0 := choose valid
  if difficulty = "easy" then
    (bIdx0, choose (emptyCells (boards.getD bIdx0 [])))
  else
    match (if difficulty = "medium" ∨ difficulty = "hard" then
        mediumHardPick valid boards else none) with
    | some bc => bc
    | none =>
      if difficulty = "hard" then hardPick boards status valid bIdx0 choose
      else (bIdx0, choose (emptyCells (boards.getD bIdx0 [])))

/-- A concrete admissible instance of the random-selection model: always
pick the first element (`Math.random()` returning 0). -/
def chooseFirst (l : List Nat) : Nat := l.headD 0

/-- Cell `i` of `board` is empty and completes a triple of three `p`
symbols when `p` is placed there — the "immediate sub-board win" notion of
the AI claims, stated over the same 8 canonical triples the code scans. -/
def completesLine (board : BoardL) (i : Nat) (p : Player) : Prop :=
  board.getD i none = none ∧
  ∃ t ∈ lines,
    (t.2.2 = i ∧ board.getD t.1 none = some p ∧ board.getD t.2.1 none = some p) ∨
    (t.2.1 = i ∧ board.getD t.1 none = some p ∧ board.getD t.2.2 none = some p) ∨
    (t.1 = i ∧ board.getD t.2.1 none = some p ∧ board.getD t.2.2 none = some p)

instance (board : BoardL) (i : Nat) (p : Player) : Decidable (completesLine board i p) := by
  unfold completesLine; infer_instance

/-! ## Concrete states used by the closed evaluation theorems -/

/-- Empty 9x9 board array. -/
def emptyBoards : List BoardL := List.replicate 9 (List.replicate 9 none)

/-- All nine sub-boards open (the `null`-filled `boardStatus`). -/
def openStatus : List Cell := List.replicate 9 none

/-- Sub-board 0 with a single empty cell at index 0; placing X there fills
it with no three-in-a-row. -/
def b0C1 : BoardL := [none, some Player.X, some Player.O, some Player.O, some Player.O,
  some Player.X, some Player.X, some Player.O, some Player.X]

/-- A playing state where X is constrained to board 0 and one X at cell 0
fills board 0 without a winner. -/
def sC1 : GameState := { initSt with
  gameStatus := GStatus.playing
  boards := emptyBoards.set 0 b0C1
  nextBoardIndex := some 0 }

/-- Sub-board 5 with a single empty cell at index 8; placing O there fills
it with no three-in-a-row. -/
def b5C2 : BoardL := [some Player.X, some Player.O, some Player.X, some Player.X, some Player.O,
  some Player.X, some Player.O, some Player.X, none]

/-- A playing state where O, constrained to board 5, fills it by playing
cell 8, producing a full board with no winner. -/
def sC2 : GameState := { initSt with
  gameStatus := GStatus.playing
  currentPlayer := some Player.O
  boards := emptyBoards.set 5 b5C2
  nextBoardIndex := some 5 }

/-- A legal seven-move opening in which the seventh move wins sub-board 0
for X (X occupies cells 0, 4, 8 of board 0). -/
def traceC3 : List GAction := [GAction.actStart, GAction.move 0 4, GAction.move 4 0,
  GAction.move 0 0, GAction.move 0 1, GAction.move 1 3, GAction.move 3 0, GAction.move 0 8]

/-- The state after two legal moves X(4,4), O(4,0) from a fresh game:
`currentMoveIndex = 1`, two history entries. -/
def sC4 : GameState := runA initSt [GAction.actStart, GAction.move 4 4, GAction.move 4 0]

/-- A multiplayer playing state whose cell (0,0) is already occupied by X,
whose active constraint is board 3, and where it is the turn of the local
player — every validation reason applies to a remote move at (0,0). -/
def sC7 : GameState := { initSt with
  gameStatus := GStatus.playing
  multiplayerMode := true
  isMyTurn := true
  currentPlayer := some Player.O
  nextBoardIndex := some 3
  boards := emptyBoards.set 0 ((List.replicate 9 (none : Cell)).set 0 (some Player.X)) }

/-- Sub-board 0 holding O at 3 and 4 (cell 5 completes the 3-4-5 row) and
X at 1; cell 0 does not complete any O line. -/
def b0C8 : BoardL := [none, some Player.X, none, some Player.O, some Player.O,
  none, none, none, none]

def boardsC8 : List BoardL := emptyBoards.set 0 b0C8

/-- Board array with X at cells 0 and 1 of sub-board 4 (X wins board 4 by
playing its cell 2); every other sub-board is empty. -/
def b4C9 : BoardL := [some Player.X, some Player.X, none, none, none, none, none, none, none]

def boardsC9 : List BoardL := emptyBoards.set 4 b4C9

/-- Board array for the C9 amended witness: X threatens at cell 2 of
sub-board 2, all other boards empty. -/
def boardsC9w : List BoardL := emptyBoards.set 2 b4C9

/-- A playing state whose sub-board 0 is already decided for X. -/
def sC3w : GameState := { initSt with
  gameStatus := GStatus.playing
  boardStatus := openStatus.set 0 (some Player.X) }

/-! ## Theorems -/

theorem chooseFirst_mem (l : List Nat) (h : l ≠ []) : chooseFirst l ∈ l := by
  cases l with
  | nil => exact absurd rfl h
  | cons a t => exact List.mem_cons_self a t

/-- C1: the claimed redirect law fails on the code when the target board is
full without a winner.  At `sC1`, the accepted move X(0,0) fills sub-board 0
completely with no three-in-a-row (BoardStatus per the spec: Draw, not
Open), yet the code leaves `nextBoardIndex = 0` instead of `None` — and the
resulting state is soft-locked: the constrained player can move neither in
board 0 (full) nor elsewhere (wrong board).  The source comment at line 404
("If the directed board is already won or filled, allow play in any
non-won board") documents the intent the code fails to implement. -/
theorem C1_redirect_keeps_full_drawn_board :
    (makeMove sC1 0 0).nextBoardIndex = some 0 ∧
    ((makeMove sC1 0 0).boards.getD 0 []).contains none = false ∧
    checkWinner ((makeMove sC1 0 0).boards.getD 0 []) = none ∧
    makeMove (makeMove sC1 0 0) 0 3 = makeMove sC1 0 0 ∧
    makeMove (makeMove sC1 0 0) 1 1 = makeMove sC1 0 0 := by decide

/-- C2: filling a sub-board with no winner does not produce a Draw status
distinct from Open.  At `sC2`, the accepted move O(5,8) fills sub-board 5
with no three-in-a-row, and the code stores `null` — the very value that
encodes Open — into `boardStatus[5]` (the `BoardStatus` array type cannot
even represent a fourth value), although the source comment at line 398
says "mark it as a tie". -/
theorem C2_draw_stored_as_open :
    (makeMove sC2 5 8).currentMoveIndex = 0 ∧
    ((makeMove sC2 5 8).boards.getD 5 []).contains none = false ∧
    checkWinner ((makeMove sC2 5 8).boards.getD 5 []) = none ∧
    (makeMove sC2 5 8).boardStatus.getD 5 none = none := by decide

/-- C3 counterexample: a reachable trace in which `boardStatus[0]`
transitions Open to X (seventh move) and then back to Open (undo), so a
non-Open entry does change value again under the operation set the claim
quantifies over. -/
theorem C3_counterexample_undo_reverts_status :
    (runA initSt traceC3).boardStatus.getD 0 none = some Player.X ∧
    (runA initSt (traceC3 ++ [GAction.actUndo])).boardStatus.getD 0 none = none := by decide

/-- C4 counterexample: `sC4` has an undo-able move (`currentMoveIndex = 1`,
not multiplayer), yet `redo (undo sC4) ≠ sC4`: undo restores the snapshot
taken before the *previous* move, so the round trip loses the last move
placed on the boards. -/
theorem C4_counterexample_redo_undo_not_identity :
    1 ≤ sC4.currentMoveIndex ∧
    sC4.currentMoveIndex ≤ (sC4.moveHistory.length : Int) - 1 ∧
    sC4.multiplayerMode = false ∧
    redo (undo sC4) ≠ sC4 := by decide

/-- C7 counterexample: at `sC7` a remote move at (0,0) is out of turn
(`isMyTurn = true`), aimed at an occupied cell, and violates the active
constraint (board 3), yet OPPONENT_MOVE applies it, overwriting the X at
cell (0,0) with O and changing the state. -/
theorem C7_counterexample_opponent_move_unvalidated :
    (sC7.boards.getD 0 []).getD 0 none = some Player.X ∧
    sC7.nextBoardIndex = some 3 ∧
    sC7.isMyTurn = true ∧
    opponentMove sC7 0 0 ≠ sC7 ∧
    ((opponentMove sC7 0 0).boards.getD 0 []).getD 0 none = some Player.O := by decide

/-- C8 counterexample: with difficulty "impossible" (selectable in the UI
components but matched by no branch of `getBotMove`), the selector falls
through to the random fallback and returns cell 0 of board 0 even though
the legal cell 5 of the same board completes three O symbols; cell 0
completes nothing. -/
theorem C8_counterexample_impossible_ignores_win :
    getBotMove boardsC8 openStatus (some 0) "impossible" chooseFirst = (0, 0) ∧
    0 ∈ validBoards openStatus (some 0) ∧
    completesLine (boardsC8.getD 0 []) 5 Player.O ∧
    ¬ completesLine (boardsC8.getD 0 []) 0 Player.O := by decide

/-- C9 counterexample: at difficulty "hard" with the bot constrained to the
empty board 0, the selector returns the center cell 4, sending the opponent
into the open board 4 where X completes a row at cell 2; the alternative
legal cell 0 was safe (board 0 after the move offers X no winning cell). -/
theorem C9_counterexample_hard_hands_opponent_win :
    getBotMove boardsC9 openStatus (some 0) "hard" chooseFirst = (0, 4) ∧
    openStatus.getD 4 none = none ∧
    findWinningMove (boardsC9.getD 4 []) Player.X = some 2 ∧
    (boardsC9.getD 0 []).getD 0 none = none ∧
    findWinningMove ((place boardsC9 0 0 (some Player.O)).getD 0 []) Player.X = none := by decide

/-- C5: rejection atomicity.  Whenever any of the five validation
preconditions of MAKE_MOVE fails — phase not playing, active constraint set
and different from the target board, target board status not `null`, target
cell not empty, or multiplayer and not the local turn — the reducer returns
the state entirely unchanged. -/
theorem C5_rejected_move_leaves_state_unchanged (s : GameState) (b c : Nat)
    (h : s.gameStatus ≠ GStatus.playing ∨
      (s.nextBoardIndex ≠ none ∧ s.nextBoardIndex ≠ some b) ∨
      s.boardStatus.get? b ≠ some none ∨
      (s.boards.getD b []).get? c ≠ some none ∨
      (s.multiplayerMode = true ∧ s.isMyTurn = false)) :
    makeMove s b c = s := by
  have h' : moveRejected s b c := h
  simp [makeMove, h']

theorem C5_witness :
    (initSt.gameStatus ≠ GStatus.playing ∨
      (initSt.nextBoardIndex ≠ none ∧ initSt.nextBoardIndex ≠ some 0) ∨
      initSt.boardStatus.get? 0 ≠ some none ∨
      (initSt.boards.getD 0 []).get? 0 ≠ some none ∨
      (initSt.multiplayerMode = true ∧ initSt.isMyTurn = false)) ∧
    makeMove initSt 0 0 = initSt :=
  ⟨Or.inl (by decide), C5_rejected_move_leaves_state_unchanged initSt 0 0 (Or.inl (by decide))⟩

/-- C6: timer forfeiture.  When TIME_UP fires with the timer at 0 in the
playing phase with the timer enabled, the result is exactly the input state
with `currentPlayer` flipped and `turnTimeRemaining` reset to the limit: in
particular no history entry is appended, the cursor, boards and board
statuses are untouched, and the active constraint is preserved. -/
theorem C6_forfeiture_flips_player_only (s : GameState)
    (h1 : s.gameStatus = GStatus.playing) (h2 : s.timerEnabled = true)
    (_hrem : s.turnTimeRemaining = 0) :
    timeUp s = { s with
      currentPlayer := flipPlayer s.currentPlayer
      turnTimeRemaining := s.turnTimeLimit } ∧
    (timeUp s).moveHistory = s.moveHistory ∧
    (timeUp s).currentMoveIndex = s.currentMoveIndex ∧
    (timeUp s).boards = s.boards ∧
    (timeUp s).boardStatus = s.boardStatus ∧
    (timeUp s).nextBoardIndex = s.nextBoardIndex := by
  simp [timeUp, h1, h2]

theorem C6_witness :
    ((startGame { initSt with turnTimeRemaining := 0 }).gameStatus = GStatus.playing ∧
      (startGame { initSt with turnTimeRemaining := 0 }).timerEnabled = true ∧
      (startGame { initSt with turnTimeRemaining := 0 }).turnTimeRemaining = 0) ∧
    timeUp (startGame { initSt with turnTimeRemaining := 0 }) =
      { startGame { initSt with turnTimeRemaining := 0 } with
        currentPlayer := flipPlayer (startGame { initSt with turnTimeRemaining := 0 }).currentPlayer
        turnTimeRemaining := (startGame { initSt with turnTimeRemaining := 0 }).turnTimeLimit } :=
  ⟨⟨by decide, by decide, by decide⟩,
    (C6_forfeiture_flips_player_only (startGame { initSt with turnTimeRemaining := 0 })
      (by decide) (by decide) (by decide)).1⟩

/-- C10: in multiplayer mode both UNDO and REDO are unconditional no-ops,
whatever the history length or cursor position, because both reducer guards
contain the disjunct `state.multiplayerMode`. -/
theorem C10_multiplayer_undo_redo_noop (s : GameState) (h : s.multiplayerMode = true) :
    undo s = s ∧ redo s = s := by
  constructor <;> simp [undo, redo, h]

theorem C10_witness :
    sC7.multiplayerMode = true ∧ undo sC7 = sC7 ∧ redo sC7 = sC7 :=
  ⟨by decide, (C10_multiplayer_undo_redo_noop sC7 (by decide)).1,
    (C10_multiplayer_undo_redo_noop sC7 (by decide)).2⟩

/-! ### Helper lemmas -/

theorem makeMove_rejected_eq (s : GameState) (b c : Nat) (h : moveRejected s b c) :
    makeMove s b c = s := by
  simp [makeMove, h]

theorem getD_set_self {α : Type} (l : List α) (i : Nat) (a d : α) (h : i < l.length) :
    (l.set i a).getD i d = a := by
  rw [List.getD_eq_getElem?_getD, List.getElem?_set_self h]
  rfl

theorem get?_set_ne {α : Type} (l : List α) {i j : Nat} (a : α) (h : i ≠ j) :
    (l.set i a).get? j = l.get? j := by
  rw [List.get?_eq_getElem?, List.get?_eq_getElem?, List.getElem?_set_ne h]

theorem flipPlayer_flipPlayer (p : Cell) (hp : p ≠ none) : flipPlayer (flipPlayer p) = p := by
  cases p with
  | none => exact absurd rfl hp
  | some q => cases q <;> rfl

theorem tripleMove_some {board : BoardL} {p : Player} {t : Nat × Nat × Nat} {i : Nat}
    (h : tripleMove board p t = some i) :
    board.getD i none = none ∧
      ((t.2.2 = i ∧ board.getD t.1 none = some p ∧ board.getD t.2.1 none = some p) ∨
       (t.2.1 = i ∧ board.getD t.1 none = some p ∧ board.getD t.2.2 none = some p) ∨
       (t.1 = i ∧ board.getD t.2.1 none = some p ∧ board.getD t.2.2 none = some p)) := by
  unfold tripleMove at h
  split_ifs at h with h1 h2 h3
  · cases h
    exact ⟨h1.2.2, Or.inl ⟨rfl, h1.1, h1.2.1⟩⟩
  · cases h
    exact ⟨h2.2.2, Or.inr (Or.inl ⟨rfl, h2.1, h2.2.1⟩)⟩
  · cases h
    exact ⟨h3.2.2, Or.inr (Or.inr ⟨rfl, h3.1, h3.2.1⟩)⟩

theorem tripleMove_eq_some {board : BoardL} {p : Player} {t : Nat × Nat × Nat} {i : Nat}
    (hempty : board.getD i none = none)
    (hpat : (t.2.2 = i ∧ board.getD t.1 none = some p ∧ board.getD t.2.1 none = some p) ∨
      (t.2.1 = i ∧ board.getD t.1 none = some p ∧ board.getD t.2.2 none = some p) ∨
      (t.1 = i ∧ board.getD t.2.1 none = some p ∧ board.getD t.2.2 none = some p)) :
    tripleMove board p t = some i := by
  rcases hpat with ⟨hi, h1, h2⟩ | ⟨hi, h1, h2⟩ | ⟨hi, h1, h2⟩ <;> subst hi <;>
    unfold tripleMove <;>
    simp only [List.getD_eq_getElem?_getD] at h1 h2 hempty ⊢ <;>
    simp [h1, h2, hempty]

theorem findWinningMove_some {board : BoardL} {p : Player} {c : Nat}
    (h : findWinningMove board p = some c) : completesLine board c p := by
  obtain ⟨t, ht, h2⟩ := List.exists_of_findSome?_eq_some h
  obtain ⟨he, hpat⟩ := tripleMove_some h2
  exact ⟨he, t, ht, hpat⟩

theorem findWinningMove_ne_none {board : BoardL} {p : Player} {c : Nat}
    (h : completesLine board c p) : findWinningMove board p ≠ none := by
  obtain ⟨he, t, ht, hpat⟩ := h
  intro hnone
  rw [findWinningMove, List.findSome?_eq_none_iff] at hnone
  exact absurd (tripleMove_eq_some he hpat) (by simp [hnone t ht])

theorem scanWin_some {valid : List Nat} {boards : List BoardL} {p : Player} {b c : Nat}
    (h : scanWin valid boards p = some (b, c)) :
    b ∈ valid ∧ findWinningMove (boards.getD b []) p = some c := by
  obtain ⟨a, ha, h2⟩ := List.exists_of_findSome?_eq_some h
  cases hx : findWinningMove (boards.getD a []) p with
  | none => rw [hx] at h2; simp at h2
  | some c0 =>
    rw [hx] at h2
    simp at h2
    obtain ⟨hab, hcc⟩ := h2
    subst hab
    subst hcc
    exact ⟨ha, hx⟩

theorem scanWin_ne_none {valid : List Nat} {boards : List BoardL} {p : Player} {b : Nat}
    (hb : b ∈ valid) (hw : findWinningMove (boards.getD b []) p ≠ none) :
    scanWin valid boards p ≠ none := by
  intro hnone
  rw [scanWin, List.findSome?_eq_none_iff] at hnone
  have h2 := hnone b hb
  cases hx : findWinningMove (boards.getD b []) p with
  | none => exact hw hx
  | some c0 => rw [hx] at h2; simp at h2

theorem scanWin_eq_none {valid : List Nat} {boards : List BoardL} {p : Player}
    (h : ∀ b ∈ valid, findWinningMove (boards.getD b []) p = none) :
    scanWin valid boards p = none := by
  rw [scanWin, List.findSome?_eq_none_iff]
  intro b hb
  have h2 := h b hb
  rw [List.getD_eq_getElem?_getD] at h2
  simp [h2]

theorem getBotMove_of_pick {boards : List BoardL} {status : List Cell} {next : Option Nat}
    {difficulty : String} {choose : List Nat → Nat} {bc : Nat × Nat}
    (hd : difficulty = "medium" ∨ difficulty = "hard")
    (h : mediumHardPick (validBoards status next) boards = some bc) :
    getBotMove boards status next difficulty choose = bc := by
  have heasy : ¬ difficulty = "easy" := by rcases hd with h' | h' <;> simp [h']
  simp only [getBotMove]
  rw [if_neg heasy, if_pos hd, h]

/-- C8 (amended): for the difficulties the engine actually implements
beyond easy — medium and hard — whenever some legal cell (an empty cell of
a board in the valid-board set) completes three bot symbols in its
sub-board, `getBotMove` returns a valid board together with a cell that
completes three bot symbols there, for every admissible random-selection
function.  The spec difficulty "Impossible" is matched by no branch of the
cited `getBotMove` and falls through to uniform random choice, so the
original claim fails for it (see the counterexample). -/
theorem C8_amended_medium_hard_take_winning_cell
    (boards : List BoardL) (status : List Cell) (next : Option Nat)
    (difficulty : String) (choose : List Nat → Nat)
    (hd : difficulty = "medium" ∨ difficulty = "hard")
    (hwin : ∃ b ∈ validBoards status next, ∃ c, completesLine (boards.getD b []) c Player.O) :
    ∃ b c, getBotMove boards status next difficulty choose = (b, c) ∧
      b ∈ validBoards status next ∧ completesLine (boards.getD b []) c Player.O := by
  obtain ⟨b, hb, c, hc⟩ := hwin
  have hscan : scanWin (validBoards status next) boards Player.O ≠ none :=
    scanWin_ne_none hb (findWinningMove_ne_none hc)
  cases hsc : scanWin (validBoards status next) boards Player.O with
  | none => exact absurd hsc hscan
  | some bc =>
    obtain ⟨b2, c2⟩ := bc
    obtain ⟨hbm, hfw⟩ := scanWin_some hsc
    have hpick : mediumHardPick (validBoards status next) boards = some (b2, c2) := by
      rw [mediumHardPick, hsc]
    exact ⟨b2, c2, getBotMove_of_pick hd hpick, hbm, findWinningMove_some hfw⟩

theorem C8_amended_witness :
    (("medium" = "medium" ∨ "medium" = "hard") ∧
      (∃ b ∈ validBoards openStatus (some 0), ∃ c,
        completesLine (boardsC8.getD b []) c Player.O)) ∧
    (∃ b c, getBotMove boardsC8 openStatus (some 0) "medium" chooseFirst = (b, c) ∧
      b ∈ validBoards openStatus (some 0) ∧ completesLine (boardsC8.getD b []) c Player.O) :=
  ⟨⟨Or.inl rfl, ⟨0, by decide, 5, by decide⟩⟩,
    C8_amended_medium_hard_take_winning_cell boardsC8 openStatus (some 0) "medium" chooseFirst
      (Or.inl rfl) ⟨0, by decide, 5, by decide⟩⟩

/-- C9 (amended): the hard-mode selector has no destination-safety check,
and can return a cell handing the opponent an immediate sub-board win even
when a safe legal cell exists (see the counterexample); the defence the
medium and hard tiers do implement is in-board blocking: when no legal
cell completes three bot symbols but some legal cell completes three
opponent symbols, `getBotMove` returns a valid board and a cell that
completes three opponent symbols there (a blocking move), for every
admissible random-selection function. -/
theorem C9_amended_hard_blocks_opponent_win
    (boards : List BoardL) (status : List Cell) (next : Option Nat)
    (difficulty : String) (choose : List Nat → Nat)
    (hd : difficulty = "medium" ∨ difficulty = "hard")
    (hnowin : ∀ b ∈ validBoards status next, findWinningMove (boards.getD b []) Player.O = none)
    (hblock : ∃ b ∈ validBoards status next, ∃ c, completesLine (boards.getD b []) c Player.X) :
    ∃ b c, getBotMove boards status next difficulty choose = (b, c) ∧
      b ∈ validBoards status next ∧ completesLine (boards.getD b []) c Player.X := by
  obtain ⟨b, hb, c, hc⟩ := hblock
  have hnone : scanWin (validBoards status next) boards Player.O = none :=
    scanWin_eq_none hnowin
  have hscan : scanWin (validBoards status next) boards Player.X ≠ none :=
    scanWin_ne_none hb (findWinningMove_ne_none hc)
  cases hsc : scanWin (validBoards status next) boards Player.X with
  | none => exact absurd hsc hscan
  | some bc =>
    obtain ⟨b2, c2⟩ := bc
    obtain ⟨hbm, hfw⟩ := scanWin_some hsc
    have hpick : mediumHardPick (validBoards status next) boards = some (b2, c2) := by
      rw [mediumHardPick, hnone, hsc]
    exact ⟨b2, c2, getBotMove_of_pick hd hpick, hbm, findWinningMove_some hfw⟩

theorem C9_amended_witness :
    (("hard" = "medium" ∨ "hard" = "hard") ∧
      (∀ b ∈ validBoards openStatus (some 2),
        findWinningMove (boardsC9w.getD b []) Player.O = none) ∧
      (∃ b ∈ validBoards openStatus (some 2), ∃ c,
        completesLine (boardsC9w.getD b []) c Player.X)) ∧
    (∃ b c, getBotMove boardsC9w openStatus (some 2) "hard" chooseFirst = (b, c) ∧
      b ∈ validBoards openStatus (some 2) ∧ completesLine (boardsC9w.getD b []) c Player.X) :=
  ⟨⟨Or.inr rfl, by decide, ⟨2, by decide, 2, by decide⟩⟩,
    C9_amended_hard_blocks_opponent_win boardsC9w openStatus (some 2) "hard" chooseFirst
      (Or.inr rfl) (by decide) ⟨2, by decide, 2, by decide⟩⟩

/-- C3 (amended): under the operations that do not rewind history —
accepted moves, timer ticks and timer forfeiture — every non-Open (X or O)
BoardStatus entry keeps its value, and a move can only write the entry of
the sub-board it plays in; UNDO and REDO, by design, restore earlier
`boardStatus` snapshots and therefore can revert a decided entry (see the
counterexample), and a full drawn sub-board keeps the Open encoding `null`
rather than a distinct Draw value. -/
theorem C3_amended_status_persistent_without_history (s : GameState) (b c k : Nat) (p : Player)
    (hk : s.boardStatus.get? k = some (some p)) :
    (makeMove s b c).boardStatus.get? k = some (some p) ∧
    (k ≠ b → (makeMove s b c).boardStatus.get? k = s.boardStatus.get? k) ∧
    (tickTimer s).boardStatus = s.boardStatus ∧
    (timeUp s).boardStatus = s.boardStatus := by
  have hframe : k ≠ b → (makeMove s b c).boardStatus.get? k = s.boardStatus.get? k := by
    intro hkb
    by_cases hrej : moveRejected s b c
    · rw [makeMove_rejected_eq s b c hrej]
    · simp only [makeMove, if_neg hrej]
      split
      · exact get?_set_ne _ _ (Ne.symm hkb)
      · split
        · exact get?_set_ne _ _ (Ne.symm hkb)
        · rfl
  refine ⟨?_, hframe, ?_, ?_⟩
  · by_cases hkb : k = b
    · subst hkb
      have hrej : moveRejected s k c := by
        unfold moveRejected
        refine Or.inr (Or.inr (Or.inl ?_))
        rw [hk]
        simp
      rw [makeMove_rejected_eq s k c hrej, hk]
    · rw [hframe hkb, hk]
  · unfold tickTimer
    split <;> rfl
  · unfold timeUp
    split <;> rfl

theorem C3_amended_witness :
    sC3w.boardStatus.get? 0 = some (some Player.X) ∧
    (makeMove sC3w 1 1).boardStatus.get? 0 = some (some Player.X) :=
  ⟨by decide,
    (C3_amended_status_persistent_without_history sC3w 1 1 0 Player.X (by decide)).1⟩

/-- C7 (amended): OPPONENT_MOVE checks only that the phase is playing and
that the session is in multiplayer mode; it is rejected (state unchanged)
exactly when one of those fails, and otherwise applies the move with no
active-constraint, board-decided, cell-occupied or turn-ownership check:
the target cell is overwritten with `currentPlayer` and a history entry is
appended in every such case. -/
theorem C7_amended_opponent_move_checks_phase_only (s : GameState) (b c : Nat) :
    ((s.gameStatus ≠ GStatus.playing ∨ s.multiplayerMode = false) → opponentMove s b c = s) ∧
    (s.gameStatus = GStatus.playing → s.multiplayerMode = true →
      b < s.boards.length → c < (s.boards.getD b []).length →
      ((opponentMove s b c).boards.getD b []).getD c none = s.currentPlayer ∧
      (opponentMove s b c).currentMoveIndex = s.currentMoveIndex + 1 ∧
      (opponentMove s b c).isMyTurn = true) := by
  constructor
  · intro h
    unfold opponentMove
    rw [if_pos h]
  · intro h1 h2 hb hc
    have hguard : ¬ (s.gameStatus ≠ GStatus.playing ∨ s.multiplayerMode = false) := by
      push_neg
      exact ⟨h1, by simp [h2]⟩
    unfold opponentMove
    rw [if_neg hguard]
    refine ⟨?_, rfl, rfl⟩
    show ((place s.boards b c s.currentPlayer).getD b []).getD c none = s.currentPlayer
    unfold place
    rw [getD_set_self _ _ _ _ hb, getD_set_self _ _ _ _ hc]

theorem C7_amended_witness :
    (initSt.gameStatus ≠ GStatus.playing ∨ initSt.multiplayerMode = false) ∧
    opponentMove initSt 0 0 = initSt ∧
    (sC7.gameStatus = GStatus.playing ∧ sC7.multiplayerMode = true ∧
      0 < sC7.boards.length ∧ 0 < (sC7.boards.getD 0 []).length) ∧
    ((opponentMove sC7 0 0).boards.getD 0 []).getD 0 none = sC7.currentPlayer :=
  ⟨Or.inl (by decide),
    (C7_amended_opponent_move_checks_phase_only initSt 0 0).1 (Or.inl (by decide)),
    ⟨by decide, by decide, by decide, by decide⟩,
    ((C7_amended_opponent_move_checks_phase_only sC7 0 0).2 (by decide) (by decide)
      (by decide) (by decide)).1⟩

theorem undo_components (s : GameState)
    (hg : ¬ (s.currentMoveIndex ≤ 0 ∨ s.multiplayerMode = true))
    (e : HistEntry) (he : s.moveHistory.get? (s.currentMoveIndex - 1).toNat = some e) :
    (undo s).currentMoveIndex = s.currentMoveIndex - 1 ∧
    (undo s).currentPlayer = flipPlayer s.currentPlayer ∧
    (undo s).moveHistory = s.moveHistory ∧
    (undo s).multiplayerMode = s.multiplayerMode := by
  unfold undo
  rw [if_neg hg, he]
  exact ⟨rfl, rfl, rfl, rfl⟩

theorem redo_components (s : GameState)
    (hg : ¬ (s.currentMoveIndex ≥ (s.moveHistory.length : Int) - 1 ∨ s.multiplayerMode = true))
    (e : HistEntry) (he : s.moveHistory.get? (s.currentMoveIndex + 1).toNat = some e) :
    (redo s).currentMoveIndex = s.currentMoveIndex + 1 ∧
    (redo s).currentPlayer = flipPlayer s.currentPlayer ∧
    (redo s).moveHistory = s.moveHistory ∧
    (redo s).multiplayerMode = s.multiplayerMode := by
  unfold redo
  rw [if_neg hg, he]
  exact ⟨rfl, rfl, rfl, rfl⟩

/-- C4 (amended): UNDO is a no-op exactly when `currentMoveIndex ≤ 0` (so
the first recorded move can never be undone) or in multiplayer mode, and
REDO is a no-op when `currentMoveIndex ≥ length - 1` or in multiplayer
mode; away from those bounds the undo/redo round trips restore only the
cursor, the player to move and the history list — the boards, statuses,
constraint, winner, phase, timer and confetti flag are *not* restored in
general, because UNDO installs the snapshot taken before the previous
move (see the counterexample). -/
theorem C4_amended_bounds_and_cursor_roundtrip (s : GameState) :
    ((s.currentMoveIndex ≤ 0 ∨ s.multiplayerMode = true) → undo s = s) ∧
    ((s.currentMoveIndex ≥ (s.moveHistory.length : Int) - 1 ∨ s.multiplayerMode = true) →
      redo s = s) ∧
    (s.multiplayerMode = false → s.currentPlayer ≠ none → 1 ≤ s.currentMoveIndex →
      s.currentMoveIndex ≤ (s.moveHistory.length : Int) - 1 →
      (redo (undo s)).currentMoveIndex = s.currentMoveIndex ∧
      (redo (undo s)).currentPlayer = s.currentPlayer ∧
      (redo (undo s)).moveHistory = s.moveHistory) ∧
    (s.multiplayerMode = false → s.currentPlayer ≠ none → 0 ≤ s.currentMoveIndex →
      s.currentMoveIndex ≤ (s.moveHistory.length : Int) - 2 →
      (undo (redo s)).currentMoveIndex = s.currentMoveIndex ∧
      (undo (redo s)).currentPlayer = s.currentPlayer ∧
      (undo (redo s)).moveHistory = s.moveHistory) := by
  refine ⟨?_, ?_, ?_, ?_⟩
  · intro h
    unfold undo
    rw [if_pos h]
  · intro h
    unfold redo
    rw [if_pos h]
  · intro hm hp h1 h2
    have hg1 : ¬ (s.currentMoveIndex ≤ 0 ∨ s.multiplayerMode = true) := by
      rw [hm]
      simp
      omega
    obtain ⟨e, he⟩ : ∃ e, s.moveHistory.get? (s.currentMoveIndex - 1).toNat = some e := by
      cases hx : s.moveHistory.get? (s.currentMoveIndex - 1).toNat with
      | none =>
        rw [List.get?_eq_none] at hx
        omega
      | some e => exact ⟨e, rfl⟩
    obtain ⟨hcmi, hcp, hmh, hmm⟩ := undo_components s hg1 e he
    have hg2 : ¬ ((undo s).currentMoveIndex ≥ ((undo s).moveHistory.length : Int) - 1 ∨
        (undo s).multiplayerMode = true) := by
      rw [hcmi, hmh, hmm, hm]
      simp
      omega
    obtain ⟨e2, he2⟩ :
        ∃ e2, (undo s).moveHistory.get? ((undo s).currentMoveIndex + 1).toNat = some e2 := by
      rw [hcmi, hmh]
      have h4 : s.currentMoveIndex - 1 + 1 = s.currentMoveIndex := by omega
      rw [h4]
      cases hx : s.moveHistory.get? s.currentMoveIndex.toNat with
      | none =>
        rw [List.get?_eq_none] at hx
        omega
      | some e2 => exact ⟨e2, rfl⟩
    obtain ⟨hcmi2, hcp2, hmh2, hmm2⟩ := redo_components (undo s) hg2 e2 he2
    refine ⟨?_, ?_, ?_⟩
    · rw [hcmi2, hcmi]
      omega
    · rw [hcp2, hcp, flipPlayer_flipPlayer s.currentPlayer hp]
    · rw [hmh2, hmh]
  · intro hm hp h1 h2
    have hg1 : ¬ (s.currentMoveIndex ≥ (s.moveHistory.length : Int) - 1 ∨
        s.multiplayerMode = true) := by
      rw [hm]
      simp
      omega
    obtain ⟨e, he⟩ : ∃ e, s.moveHistory.get? (s.currentMoveIndex + 1).toNat = some e := by
      cases hx : s.moveHistory.get? (s.currentMoveIndex + 1).toNat with
      | none =>
        rw [List.get?_eq_none] at hx
        omega
      | some e => exact ⟨e, rfl⟩
    obtain ⟨hcmi, hcp, hmh, hmm⟩ := redo_components s hg1 e he
    have hg2 : ¬ ((redo s).currentMoveIndex ≤ 0 ∨ (redo s).multiplayerMode = true) := by
      rw [hcmi, hmm, hm]
      simp
      omega
    obtain ⟨e2, he2⟩ :
        ∃ e2, (redo s).moveHistory.get? ((redo s).currentMoveIndex - 1).toNat = some e2 := by
      rw [hcmi, hmh]
      have h4 : s.currentMoveIndex + 1 - 1 = s.currentMoveIndex := by omega
      rw [h4]
      cases hx : s.moveHistory.get? s.currentMoveIndex.toNat with
      | none =>
        rw [List.get?_eq_none] at hx
        omega
      | some e2 => exact ⟨e2, rfl⟩
    obtain ⟨hcmi2, hcp2, hmh2, hmm2⟩ := undo_components (redo s) hg2 e2 he2
    refine ⟨?_, ?_, ?_⟩
    · rw [hcmi2, hcmi]
      omega
    · rw [hcp2, hcp, flipPlayer_flipPlayer s.currentPlayer hp]
    · rw [hmh2, hmh]

theorem C4_amended_witness :
    (sC4.multiplayerMode = false ∧ sC4.currentPlayer ≠ none ∧ 1 ≤ sC4.currentMoveIndex ∧
      sC4.currentMoveIndex ≤ (sC4.moveHistory.length : Int) - 1) ∧
    ((redo (undo sC4)).currentMoveIndex = sC4.currentMoveIndex ∧
      (redo (undo sC4)).currentPlayer = sC4.currentPlayer ∧
      (redo (undo sC4)).moveHistory = sC4.moveHistory) :=
  ⟨⟨by decide, by decide, by decide, by decide⟩,
    (C4_amended_bounds_and_cursor_roundtrip sC4).2.2.1 (by decide) (by decide)
      (by decide) (by decide)⟩
